import Mathlib

/-!
# Verification of the Youtube analyzer batch/orchestration core

Shallow embedding of the components of the repository that the checked
claims are about:

* `TokenEstimator` / `TranscriptChunker` (src/services/transcript_chunker.py)
* `RetryManager.execute_with_retry`     (src/services/utils.py)
* `SummarizationService._combine_chunk_summaries`
                                        (src/services/summarization_service.py)
* `VideoOrchestrator.process_video`     (src/app/services/orchestrator.py)
* `BatchProcessor.process_batch`        (src/services/batch_processor.py)
* `JobManager.cancel_job`               (src/app/services/job_manager.py)

Python floats (timestamps, delays, temperature, token multipliers) are
modelled as rationals; external collaborator calls (metadata fetch,
transcript fetch, LLM summarization, the event-loop clock) are modelled as
explicit environment functions, and `asyncio.gather` is modelled by its
documented semantics: the result list is in argument order regardless of
completion order.
-/

namespace YTA

/-- Error information (src/models.py `ErrorInfo`). -/
structure ErrorInfo where
  code : String
  message : String
deriving DecidableEq

/-- One transcript segment (src/models.py `TranscriptSegment`). -/
structure TranscriptSegment where
  text : String
  start : ℚ
  duration : ℚ
deriving DecidableEq

/-- Transcript of one language (src/models.py `TranscriptData`). -/
structure TranscriptData where
  source : String := "auto"
  segments : List TranscriptSegment
  language : Option String := none
deriving DecidableEq

/-- Video metadata (src/models.py `VideoMetadata`). -/
structure VideoMetadata where
  title : String
  channel : String
  published_at : String
  duration_sec : Nat
  url : String
deriving DecidableEq

/-- A framework entry of a summary (src/models.py `FrameworkData`). -/
structure FrameworkData where
  name : String
  description : String
  steps : List String
deriving DecidableEq

/-- Structured summary data (src/models.py `SummaryData`). -/
structure SummaryData where
  summary : String
  key_insights : List String
  frameworks : List FrameworkData := []
  key_moments : List String
  topics : List String := []
  bullets : List String := []
  quotes : List String := []
  actions : List String := []
deriving DecidableEq

/-- Per-chunk summary data (src/models.py `ChunkSummaryData`). -/
structure ChunkSummaryData where
  chunk_index : Nat
  start_time : ℚ
  end_time : ℚ
  summary : String
  key_insights : List String
  frameworks : List FrameworkData := []
  key_moments : List String
  is_final_chunk : Bool := false
deriving DecidableEq

/-- Bilingual summaries (src/models.py `Summaries`; the app-side orchestrator
reads and writes the `es`/`en` fields). -/
structure Summaries where
  es : Option SummaryData := none
  en : Option SummaryData := none
  chunk_summaries : Option (List ChunkSummaryData) := none
deriving DecidableEq

/-- Transcripts of a video as used by `src/app/services/orchestrator.py`
(fields `es`/`en`, each an optional `TranscriptData`). -/
structure Transcripts where
  es : Option TranscriptData := none
  en : Option TranscriptData := none
deriving DecidableEq

/-- Optional markdown fields (src/models.py `MarkdownFields`). -/
structure MarkdownFields where
  summary_es : Option String := none
  summary_en : Option String := none
  transcript_es : Option String := none
  transcript_en : Option String := none
deriving DecidableEq

/-- Result of processing one video (src/models.py `VideoResult`). -/
structure VideoResult where
  url : String
  video_id : String
  status : String
  metadata : Option VideoMetadata := none
  transcripts : Option Transcripts := none
  summaries : Option Summaries := none
  markdown : Option MarkdownFields := none
  error : Option ErrorInfo := none
deriving DecidableEq

/-- Analysis options (src/models.py `AnalysisOptions`). -/
structure AnalysisOptions where
  include_markdown : Bool := false
  languages : List String := ["es", "en"]
  provider : String := "openai/gpt-4o-mini"
  temperature : ℚ := 2/10
  max_tokens : Nat := 1200
  async_processing : Bool := false
deriving DecidableEq

/-- Aggregation counters of a batch response (src/models.py
`AggregationInfo`). -/
structure AggregationInfo where
  total : Nat
  succeeded : Nat
  failed : Nat
deriving DecidableEq

/-- Config echo of a batch response (src/models.py `ConfigInfo`). -/
structure ConfigInfo where
  provider : String
  temperature : ℚ
  max_tokens : Nat
deriving DecidableEq

/-- Batch analysis response (src/models.py `AnalysisResponse`). -/
structure AnalysisResponse where
  request_id : String
  results : List VideoResult
  aggregation : AggregationInfo
  config : ConfigInfo
deriving DecidableEq

/-! ## Transcript chunker (src/services/transcript_chunker.py) -/

/-- Chunking configuration (`ChunkingConfig`). -/
structure ChunkingConfig where
  max_tokens : Nat := 2000
  max_chars : Nat := 8000
  overlap_tokens : Nat := 100
  preserve_boundaries : Bool := true
  min_chunk_size : Nat := 100
deriving DecidableEq

/-- A chunk of transcript with metadata (`TranscriptChunk`). -/
structure TranscriptChunk where
  text : String
  segments : List TranscriptSegment
  start_time : ℚ
  end_time : ℚ
  token_count : Nat
  char_count : Nat
  chunk_index : Nat
  language : String
deriving DecidableEq

/-- `str.strip()`: remove leading and trailing whitespace (structural model
of the Python string method). -/
def pyStrip (s : String) : String :=
  String.mk (((s.data.dropWhile Char.isWhitespace).reverse.dropWhile
    Char.isWhitespace).reverse)

/-- Count the maximal whitespace-free words of a character list; the flag
records whether the previous character belonged to a word. -/
def countWordsAux : List Char → Bool → Nat
  | [], _ => 0
  | c :: rest, inWord =>
      if c.isWhitespace then countWordsAux rest false
      else (if inWord then 0 else 1) + countWordsAux rest true

/-- `len(text.split())`: number of maximal whitespace-free words. -/
def wordCount (text : String) : Nat :=
  countWordsAux text.data false

/-- Ten times the language-specific token multiplier of
`TokenEstimator.__init__` (`1.3`, `1.4`, ... are exact tenths, so the float
table is modelled exactly by its numerators over 10); `dict.get` with
default `1.3`. -/
def languageMultiplier10 (language : String) : Nat :=
  if language = "en" then 13
  else if language = "es" then 14
  else if language = "fr" then 14
  else if language = "de" then 15
  else if language = "it" then 14
  else if language = "pt" then 14
  else if language = "ru" then 16
  else if language = "zh" then 20
  else if language = "ja" then 20
  else if language = "ko" then 20
  else 13

/-- `TokenEstimator.estimate_tokens`: `int(words * multiplier) + 10`, at
least 1, and 0 for empty text.  Since every multiplier is an exact tenth
and the arguments are non-negative, truncation of `words * multiplier` is
exactly `words * (10 * multiplier) / 10` in natural division. -/
def estimate_tokens (text : String) (language : String) : Nat :=
  if text = "" then 0
  else
    let words := wordCount text
    let estimated := words * languageMultiplier10 language / 10 + 10
    max estimated 1

/-- `current_text.endswith(' ')`. -/
def endsWithSpace (s : String) : Bool :=
  s.data.getLast? = some ' '

/-- `TranscriptChunker._segments_to_text`:
`' '.join(segment.text.strip() for segment in segments if segment.text.strip())`. -/
def segmentsToText (segments : List TranscriptSegment) : String :=
  String.intercalate " " ((segments.map fun s => pyStrip s.text).filter fun t => t ≠ "")

/-- `TranscriptChunker._create_single_chunk`. -/
def createSingleChunk (td : TranscriptData) (language : String) (chunk_index : Nat) :
    TranscriptChunk :=
  let segments := td.segments
  let text := segmentsToText segments
  { text := text
    segments := segments
    start_time := match segments with | [] => 0 | s :: _ => s.start
    end_time := match segments.getLast? with | none => 0 | some s => s.start + s.duration
    token_count := estimate_tokens text language
    char_count := text.length
    chunk_index := chunk_index
    language := language }

/-- `TranscriptChunker._create_chunk_from_segments`. -/
def createChunkFromSegments (segments : List TranscriptSegment) (chunk_index : Nat)
    (language : String) : TranscriptChunk :=
  let text := segmentsToText segments
  { text := text
    segments := segments
    start_time := match segments with | [] => 0 | s :: _ => s.start
    end_time := match segments.getLast? with | none => 0 | some s => s.start + s.duration
    token_count := estimate_tokens text language
    char_count := text.length
    chunk_index := chunk_index
    language := language }

/-- The segment loop of `TranscriptChunker._create_chunks`.  Arguments:
remaining segments, current chunk segments, current accumulated text,
current token count, next chunk index.  Whitespace-only segments are
skipped (`continue`); when adding a segment would exceed the token or
char bound the current chunk (if non-empty) is closed and a new one is
started with the overflowing segment. -/
def createChunksGo (cfg : ChunkingConfig) (language : String) :
    List TranscriptSegment → List TranscriptSegment → String → Nat → Nat →
    List TranscriptChunk
  | [], cur, _, _, idx =>
      if cur = [] then [] else [createChunkFromSegments cur idx language]
  | seg :: rest, cur, curText, curTokens, idx =>
      let st := pyStrip seg.text
      if st = "" then
        createChunksGo cfg language rest cur curText curTokens idx
      else
        let st' := if curText ≠ "" ∧ ¬ endsWithSpace curText then " " ++ st else st
        let segTokens := estimate_tokens st' language
        if curTokens + segTokens > cfg.max_tokens ∨
            (curText ++ st').length > cfg.max_chars then
          if cur = [] then
            createChunksGo cfg language rest [seg] st' segTokens idx
          else
            createChunkFromSegments cur idx language ::
              createChunksGo cfg language rest [seg] st' segTokens (idx + 1)
        else
          createChunksGo cfg language rest (cur ++ [seg]) (curText ++ st')
            (curTokens + segTokens) idx

/-- `TranscriptChunker._create_chunks`. -/
def createChunks (cfg : ChunkingConfig) (td : TranscriptData) (language : String) :
    List TranscriptChunk :=
  createChunksGo cfg language td.segments [] "" 0 0

/-- `TranscriptChunker.chunk_transcript`. -/
def chunk_transcript (cfg : ChunkingConfig) (td : TranscriptData) (language : String) :
    List TranscriptChunk :=
  if td.segments = [] then []
  else
    let full_text := segmentsToText td.segments
    let total_tokens := estimate_tokens full_text language
    if total_tokens ≤ cfg.max_tokens then [createSingleChunk td language 0]
    else createChunks cfg td language

/-! ## RetryManager (src/services/utils.py) -/

/-- Retry manager configuration (`RetryManager.__init__`). -/
structure RetryManager where
  max_retries : Nat := 3
  base_delay : ℚ := 1
deriving DecidableEq

/-- The `for attempt in range(max_retries)` loop of
`RetryManager.execute_with_retry`.  The operation is modelled as a function
from the 0-based attempt index to its outcome.  Returns the overall outcome
(`Except.error none` models `raise last_exception` with no attempt made,
possible only for `max_retries = 0`), the number of attempts made, and the
list of back-off delays slept, in order.  A delay of
`base_delay * 2 ^ attempt` is slept only when the failed attempt is not the
last one (`attempt < max_retries - 1`). -/
def executeWithRetryGo (base_delay : ℚ) (op : Nat → Except E A) :
    Nat → Nat → Option E → Except (Option E) A × Nat × List ℚ
  | _, 0, lastErr => (Except.error lastErr, 0, [])
  | i, rem + 1, _ =>
      match op i with
      | Except.ok a => (Except.ok a, 1, [])
      | Except.error e =>
          if rem = 0 then (Except.error (some e), 1, [])
          else
            let delay := base_delay * 2 ^ i
            let r := executeWithRetryGo base_delay op (i + 1) rem (some e)
            (r.1, r.2.1 + 1, delay :: r.2.2)

/-- `RetryManager.execute_with_retry`. -/
def execute_with_retry (mgr : RetryManager) (op : Nat → Except E A) :
    Except (Option E) A × Nat × List ℚ :=
  executeWithRetryGo mgr.base_delay op 0 mgr.max_retries none

/-! ## Summary merge (src/services/summarization_service.py) -/

/-- `list(dict.fromkeys(l))`: order-preserving deduplication keeping the
first occurrence; `seen` accumulates the keys already emitted. -/
def dedupFirstAux (seen : List String) : List String → List String
  | [] => []
  | x :: xs =>
      if x ∈ seen then dedupFirstAux seen xs
      else x :: dedupFirstAux (x :: seen) xs

/-- Framework deduplication by `name`, first occurrence wins (the
`unique_frameworks` dict of `_combine_chunk_summaries`). -/
def dedupByNameAux (seen : List String) : List FrameworkData → List FrameworkData
  | [] => []
  | f :: fs =>
      if f.name ∈ seen then dedupByNameAux seen fs
      else f :: dedupByNameAux (f.name :: seen) fs

/-- `SummarizationService._combine_chunk_summaries`. -/
def combine_chunk_summaries (chunk_summaries : List SummaryData)
    (all_insights : List String) (all_frameworks : List FrameworkData)
    (all_moments : List String) : SummaryData :=
  let n := chunk_summaries.length
  let executive_summary_parts : List String :=
    match chunk_summaries with
    | [] => []
    | c :: rest =>
        if rest = [] then [c.summary]
        else [c.summary,
          s!"Este análisis completo cubre {n} secciones principales del video."]
  let unique_insights := dedupFirstAux [] all_insights
  let limited_insights := unique_insights.take 12
  let frameworks_list := dedupByNameAux [] all_frameworks
  let unique_moments := dedupFirstAux [] all_moments
  { summary :=
      if executive_summary_parts = [] then "Resumen no disponible"
      else String.intercalate "\n\n" executive_summary_parts
    key_insights := limited_insights
    frameworks := frameworks_list
    key_moments := unique_moments
    topics := []
    bullets := limited_insights.take 8
    quotes := []
    actions := [] }

/-- The invocation of `_combine_chunk_summaries` in `summarize_transcript`:
the collected `all_key_insights` / `all_frameworks` / `all_key_moments` are
the field-wise concatenations over the successful chunk summaries. -/
def mergeChunkSummaries (chunk_summaries : List SummaryData) : SummaryData :=
  combine_chunk_summaries chunk_summaries
    (chunk_summaries.map SummaryData.key_insights).flatten
    (chunk_summaries.map SummaryData.frameworks).flatten
    (chunk_summaries.map SummaryData.key_moments).flatten

/-! ## Orchestrator (src/app/services/orchestrator.py) -/

/-- `ProcessingStats` of the orchestrator; timestamps are rationals. -/
structure ProcessingStats where
  start_time : ℚ
  end_time : Option ℚ := none
  metadata_fetch_time : Option ℚ := none
  transcript_fetch_time : Option ℚ := none
  chunking_time : Option ℚ := none
  summarization_time : Option ℚ := none
  total_time : Option ℚ := none
deriving DecidableEq

/-- `ProcessingStats.complete`, evaluated at clock value `now`
(`datetime.now()` is always truthy, so `total_time` is always set). -/
def ProcessingStats.complete (s : ProcessingStats) (now : ℚ) : ProcessingStats :=
  { s with end_time := some now, total_time := some (now - s.start_time) }

/-- Environment of one `process_video` call: the outcomes of the external
collaborator calls (video-id extraction, metadata fetch, transcript fetch,
bilingual summarization) and the clock values observed.  `fetch_metadata` /
`fetch_transcripts` model the values of the already-exception-catching
helpers `_fetch_metadata` / `_fetch_transcripts`, which return either data
or an `ErrorInfo`. -/
structure OrchestratorEnv where
  extract_video_id : String → Option String
  fetch_metadata : String → Except ErrorInfo VideoMetadata
  fetch_transcripts : String → List String → Except ErrorInfo Transcripts
  summarize_bilingual :
    List TranscriptChunk → List TranscriptChunk → Except ErrorInfo Summaries
  start_clock : ℚ
  end_clock : ℚ
  metadata_elapsed : ℚ
  transcript_elapsed : ℚ
  chunking_elapsed : ℚ
  summarization_elapsed : ℚ

/-- `VideoOrchestrator._create_error_result`. -/
def createErrorResult (url video_id error_code error_message : String) : VideoResult :=
  { url := url
    video_id := video_id
    status := "error"
    error := some { code := error_code, message := error_message } }

/-- `VideoOrchestrator._chunk_transcripts`: chunk the Spanish and English
transcripts when present. -/
def chunkTranscripts (cfg : ChunkingConfig) (transcripts : Option Transcripts) :
    List TranscriptChunk × List TranscriptChunk :=
  match transcripts with
  | none => ([], [])
  | some t =>
      ((match t.es with | none => [] | some es => chunk_transcript cfg es "es"),
       (match t.en with | none => [] | some en => chunk_transcript cfg en "en"))

/-- `VideoOrchestrator._generate_summaries`: `None` when there are no chunks
(early return, before `summarization_time` is recorded) and on a
summarization error; otherwise the bilingual summaries. -/
def generateSummaries (env : OrchestratorEnv) (es_chunks en_chunks : List TranscriptChunk)
    (stats : ProcessingStats) : Option Summaries × ProcessingStats :=
  if es_chunks = [] ∧ en_chunks = [] then (none, stats)
  else
    let stats' := { stats with summarization_time := some env.summarization_elapsed }
    match env.summarize_bilingual es_chunks en_chunks with
    | Except.error _ => (none, stats')
    | Except.ok s => (some s, stats')

/-- `VideoOrchestrator.process_video`: extract the video id (failure is a
terminal `INVALID_URL` error), fetch metadata (failure is terminal), fetch
transcripts (failure is non-terminal: continue with `transcripts = None`),
chunk, summarize, and build the `ok` result.  `stats.complete()` is invoked
on the normal exit only; the two terminal error returns leave the stats
incomplete. -/
def process_video (env : OrchestratorEnv) (cfg : ChunkingConfig) (url : String)
    (options : AnalysisOptions) : VideoResult × ProcessingStats :=
  let stats0 : ProcessingStats := { start_time := env.start_clock }
  match env.extract_video_id url with
  | none =>
      (createErrorResult url "unknown" "INVALID_URL" "Could not extract video ID", stats0)
  | some video_id =>
      match env.fetch_metadata url with
      | Except.error e =>
          let stats1 := { stats0 with metadata_fetch_time := some env.metadata_elapsed }
          (createErrorResult url video_id e.code e.message, stats1)
      | Except.ok metadata =>
          let stats1 := { stats0 with metadata_fetch_time := some env.metadata_elapsed }
          let transcripts : Option Transcripts :=
            match env.fetch_transcripts url options.languages with
            | Except.error _ => none
            | Except.ok t => some t
          let stats2 := { stats1 with transcript_fetch_time := some env.transcript_elapsed }
          let chunks := chunkTranscripts cfg transcripts
          let stats3 := { stats2 with chunking_time := some env.chunking_elapsed }
          let sres := generateSummaries env chunks.1 chunks.2 stats3
          let result : VideoResult :=
            { url := url
              video_id := video_id
              status := "ok"
              metadata := some metadata
              transcripts := transcripts
              summaries := sres.1
              markdown := none
              error := none }
          (result, sres.2.complete env.end_clock)

/-! ## Batch processor (src/services/batch_processor.py) -/

/-- `BatchConfig`. -/
structure BatchConfig where
  max_concurrent : Nat := 3
  timeout_per_video : Nat := 300
  retry_failed : Bool := false
  max_retries : Nat := 1
deriving DecidableEq

/-- Outcome of `video_orchestrator.process_video` inside the per-video
`try` block of `_process_single_video`: a returned result, an
`asyncio.TimeoutError` from `wait_for`, or any other exception. -/
inductive InvocationOutcome where
  | returns (r : VideoResult)
  | timeout
  | raises (msg : String)
deriving DecidableEq

/-- Outcome of one per-video task as seen by `process_batch`: either
`_process_single_video` runs to completion, or an exception escapes the
task itself (e.g. cancellation), which `asyncio.gather` hands back as an
exception object. -/
inductive TaskOutcome where
  | inv (o : InvocationOutcome)
  | escape (msg : String)
deriving DecidableEq

/-- Whether the per-video task completes without an escaping exception. -/
def TaskOutcome.isInv : TaskOutcome → Bool
  | .inv _ => true
  | .escape _ => false

/-- TIMEOUT error result built by `_process_single_video`. -/
def timeoutResult (url : String) (timeout_per_video : Nat) : VideoResult :=
  { url := url
    video_id := "unknown"
    status := "error"
    error := some
      { code := "TIMEOUT"
        message := s!"Video processing timed out after {timeout_per_video} seconds" } }

/-- PROCESSING_ERROR result built by the generic `except Exception` handler
of `_process_single_video`. -/
def processingErrorResult (url msg : String) : VideoResult :=
  { url := url
    video_id := "unknown"
    status := "error"
    error := some { code := "PROCESSING_ERROR", message := msg } }

/-- TASK_EXCEPTION error result built by `process_batch` for an exception
object returned by `asyncio.gather`. -/
def taskExceptionResult (msg : String) : VideoResult :=
  { url := "unknown"
    video_id := "unknown"
    status := "error"
    error := some { code := "TASK_EXCEPTION", message := msg } }

/-- `BatchProcessor._process_single_video` (given the orchestrator
outcome): returns the `(result, success)` pair. -/
def processSingleVideo (cfg : BatchConfig) (url : String) (o : InvocationOutcome) :
    VideoResult × Bool :=
  match o with
  | .returns r => (r, decide (r.status = "ok"))
  | .timeout => (timeoutResult url cfg.timeout_per_video, false)
  | .raises msg => (processingErrorResult url msg, false)

/-- The result entry `process_batch` produces for one per-video task. -/
def expectedEntry (cfg : BatchConfig) (url : String) : TaskOutcome → VideoResult
  | .inv o => (processSingleVideo cfg url o).1
  | .escape msg => taskExceptionResult msg

/-- The `for task_result in completed_tasks` accumulation loop of the
concurrent branch of `process_batch`: builds the result list (in task
order, as `asyncio.gather` returns it) and the `succeeded`/`failed`
counters. -/
def gatherFold (cfg : BatchConfig) :
    List (String × TaskOutcome) → List VideoResult × Nat × Nat
  | [] => ([], 0, 0)
  | (url, t) :: rest =>
      let r := gatherFold cfg rest
      match t with
      | .escape msg => (taskExceptionResult msg :: r.1, r.2.1, r.2.2 + 1)
      | .inv o =>
          let pr := processSingleVideo cfg url o
          (pr.1 :: r.1,
           if pr.2 then r.2.1 + 1 else r.2.1,
           if pr.2 then r.2.2 else r.2.2 + 1)

/-- The sequential branch of `process_batch` (`max_concurrent == 1`):
awaits each task in order; an exception escaping a task propagates out of
`process_batch` itself (modelled as `Except.error`). -/
def seqFold (cfg : BatchConfig) :
    List (String × TaskOutcome) → Except String (List VideoResult × Nat × Nat)
  | [] => Except.ok ([], 0, 0)
  | (url, t) :: rest =>
      match t with
      | .escape msg => Except.error msg
      | .inv o =>
          let pr := processSingleVideo cfg url o
          match seqFold cfg rest with
          | Except.error m => Except.error m
          | Except.ok r =>
              Except.ok (pr.1 :: r.1,
                if pr.2 then r.2.1 + 1 else r.2.1,
                if pr.2 then r.2.2 else r.2.2 + 1)

/-- `BatchProcessor.process_batch`.  The per-video tasks are created in
input order (`enumerate(urls)`); `f i url` is the outcome of the task for
index `i` and url `url`.  The sequential branch is taken exactly when
`max_concurrent == 1`. -/
def process_batch (cfg : BatchConfig) (urls : List String) (options : AnalysisOptions)
    (request_id : String) (f : Nat → String → TaskOutcome) :
    Except String AnalysisResponse :=
  let tasks := urls.enum.map fun p => (p.2, f p.1 p.2)
  let folded : Except String (List VideoResult × Nat × Nat) :=
    if cfg.max_concurrent = 1 then seqFold cfg tasks
    else Except.ok (gatherFold cfg tasks)
  match folded with
  | Except.error m => Except.error m
  | Except.ok r =>
      Except.ok
        { request_id := request_id
          results := r.1
          aggregation := { total := urls.length, succeeded := r.2.1, failed := r.2.2 }
          config :=
            { provider := options.provider
              temperature := options.temperature
              max_tokens := options.max_tokens } }

/-! ## Job manager (src/app/services/job_manager.py) -/

/-- `JobState` enum. -/
inductive JobState where
  | pending
  | running
  | completed
  | failed
deriving DecidableEq

/-- `JobStatus` record held in `JobManager.jobs` (the app-side model;
fields as used by `job_manager.py`). -/
structure JobStatus where
  job_id : String
  status : JobState
  created_at : ℚ
  completed_at : Option ℚ := none
  result : Option AnalysisResponse := none
  error : Option ErrorInfo := none
deriving DecidableEq

/-- Association-list lookup modelling `self.jobs.get(job_id)`. -/
def lookupJob : List (String × JobStatus) → String → Option JobStatus
  | [], _ => none
  | (k, v) :: rest, key => if k = key then some v else lookupJob rest key

/-- Association-list update modelling mutation of `self.jobs[job_id]`. -/
def updateJob : List (String × JobStatus) → String → JobStatus →
    List (String × JobStatus)
  | [], key, v => [(key, v)]
  | (k, v0) :: rest, key, v =>
      if k = key then (k, v) :: rest else (k, v0) :: updateJob rest key v

/-- `JobManager` state: the jobs dict and the set of job ids with a live
background task handle. -/
structure JobManager where
  jobs : List (String × JobStatus)
  running_tasks : List String
deriving DecidableEq

/-- `JobManager.cancel_job` evaluated at clock value `now`: returns `False`
for an unknown or already terminal (`completed`/`failed`) job; otherwise
cancels and removes the background task handle, marks the record `failed`
with code `JOB_CANCELLED` and sets `completed_at`, and returns `True`. -/
def cancel_job (m : JobManager) (job_id : String) (now : ℚ) : Bool × JobManager :=
  match lookupJob m.jobs job_id with
  | none => (false, m)
  | some job =>
      if job.status = JobState.completed ∨ job.status = JobState.failed then (false, m)
      else
        let tasks' := m.running_tasks.erase job_id
        let cancelled : JobStatus :=
          { job with
              status := JobState.failed
              completed_at := some now
              error := some { code := "JOB_CANCELLED", message := "Job was cancelled by user" } }
        (true, { jobs := updateJob m.jobs job_id cancelled, running_tasks := tasks' })

/-! ## Concrete instances used by witnesses and counterexamples -/

/-- An operation that fails on every attempt. -/
def alwaysFails : Nat → Except String Nat := fun _ => Except.error "boom"

/-- A successful single-video result. -/
def okResultW : VideoResult := { url := "u", video_id := "v", status := "ok" }

/-- Per-task outcomes: every video completes successfully. -/
def allOkTasks : Nat → String → TaskOutcome :=
  fun _ _ => TaskOutcome.inv (InvocationOutcome.returns okResultW)

/-- Per-task outcomes: the first video raises inside its invocation, the
second completes. -/
def firstRaisesTasks : Nat → String → TaskOutcome :=
  fun i _ =>
    if i = 0 then TaskOutcome.inv (InvocationOutcome.raises "boom")
    else TaskOutcome.inv (InvocationOutcome.returns okResultW)

/-- A placeholder response used when extracting the value of an `Except`. -/
def emptyResponse : AnalysisResponse :=
  { request_id := ""
    results := []
    aggregation := { total := 0, succeeded := 0, failed := 0 }
    config := { provider := "", temperature := 0, max_tokens := 0 } }

/-- The concrete response of a two-url batch where every video succeeds. -/
def respAllOk : AnalysisResponse :=
  match process_batch {} ["a", "b"] {} "r" allOkTasks with
  | Except.ok r => r
  | Except.error _ => emptyResponse

/-- The concrete response of a two-url batch where the first invocation
raises. -/
def respFirstRaises : AnalysisResponse :=
  match process_batch {} ["a", "b"] {} "r" firstRaisesTasks with
  | Except.ok r => r
  | Except.error _ => emptyResponse

/-- Orchestrator environment in which video-id extraction always fails. -/
def envNoId : OrchestratorEnv :=
  { extract_video_id := fun _ => none
    fetch_metadata := fun _ => Except.error { code := "E", message := "e" }
    fetch_transcripts := fun _ _ => Except.error { code := "E", message := "e" }
    summarize_bilingual := fun _ _ => Except.error { code := "E", message := "e" }
    start_clock := 0
    end_clock := 7
    metadata_elapsed := 1
    transcript_elapsed := 1
    chunking_elapsed := 1
    summarization_elapsed := 1 }

/-- Metadata value used by concrete orchestrator environments. -/
def metaW : VideoMetadata :=
  { title := "t", channel := "c", published_at := "p", duration_sec := 10, url := "u" }

/-- Orchestrator environment in which extraction and metadata succeed but
the transcript fetch fails. -/
def envNoTranscript : OrchestratorEnv :=
  { extract_video_id := fun _ => some "vid00000001"
    fetch_metadata := fun _ => Except.ok metaW
    fetch_transcripts := fun _ _ =>
      Except.error { code := "TRANSCRIPT_ERROR", message := "no transcript" }
    summarize_bilingual := fun _ _ => Except.error { code := "E", message := "e" }
    start_clock := 0
    end_clock := 7
    metadata_elapsed := 1
    transcript_elapsed := 1
    chunking_elapsed := 1
    summarization_elapsed := 1 }

/-- A single-pending-job manager state. -/
def pendingManager : JobManager :=
  { jobs := [("j", { job_id := "j", status := JobState.pending, created_at := 0 })]
    running_tasks := ["j"] }

/-- A one-chunk summary with duplicate-free fields and non-trivial legacy
fields. -/
def summaryW : SummaryData :=
  { summary := "a"
    key_insights := ["i1", "i2"]
    frameworks := [{ name := "f", description := "d", steps := ["s1"] }]
    key_moments := ["m"]
    topics := ["t"]
    bullets := ["b"]
    quotes := ["q"]
    actions := ["act"] }

/-- A one-chunk summary whose legacy `topics` field is non-empty. -/
def summaryTopics : SummaryData :=
  { summary := "x", key_insights := [], key_moments := [], topics := ["t"] }

/-- Transcript with a whitespace-only middle segment. -/
def tdBlankMiddle : TranscriptData :=
  { segments := [⟨"hello world", 0, 1⟩, ⟨"   ", 1, 1⟩, ⟨"foo bar baz", 2, 1⟩] }

/-- Transcript with two non-blank segments. -/
def tdTwoSegs : TranscriptData :=
  { segments := [⟨"hello world", 0, 1⟩, ⟨"foo bar baz", 2, 1⟩] }

/-- Transcript with one non-blank segment. -/
def tdOneSeg : TranscriptData := { segments := [⟨"hi there", 0, 2⟩] }

/-- A small chunking budget that forces the multi-chunk path on the
transcripts above. -/
def smallCfg : ChunkingConfig := { max_tokens := 15 }

/-! # Theorems -/

/-! ## Helper lemmas -/

/-- `dict.fromkeys` deduplication is the identity on duplicate-free lists
disjoint from the seen set. -/
theorem dedupFirstAux_eq_self : ∀ (l seen : List String), l.Nodup →
    (∀ x ∈ l, x ∉ seen) → dedupFirstAux seen l = l := by
  intro l
  induction l with
  | nil => intro seen _ _; rfl
  | cons x xs ih =>
      intro seen hnd hdisj
      rw [List.nodup_cons] at hnd
      rw [dedupFirstAux, if_neg (hdisj x (List.mem_cons_self x xs))]
      refine congrArg _ (ih (x :: seen) hnd.2 ?_)
      intro y hy
      rw [List.mem_cons]
      rintro (rfl | hmem)
      · exact hnd.1 hy
      · exact hdisj y (List.mem_cons_of_mem x hy) hmem

/-- Framework deduplication is the identity when the names are
duplicate-free and disjoint from the seen set. -/
theorem dedupByNameAux_eq_self : ∀ (l : List FrameworkData) (seen : List String),
    (l.map FrameworkData.name).Nodup → (∀ f ∈ l, f.name ∉ seen) →
    dedupByNameAux seen l = l := by
  intro l
  induction l with
  | nil => intro seen _ _; rfl
  | cons f fs ih =>
      intro seen hnd hdisj
      rw [List.map_cons, List.nodup_cons] at hnd
      rw [dedupByNameAux, if_neg (hdisj f (List.mem_cons_self f fs))]
      refine congrArg _ (ih (f.name :: seen) hnd.2 ?_)
      intro g hg
      rw [List.mem_cons]
      rintro (h | hmem)
      · exact hnd.1 (h ▸ List.mem_map_of_mem FrameworkData.name hg)
      · exact hdisj g (List.mem_cons_of_mem f hg) hmem

/-- `String.intercalate` on a one-element list is that element. -/
theorem intercalate_singleton (s a : String) : String.intercalate s [a] = a := rfl

/-- Looking up a job right after updating it yields the updated record. -/
theorem lookupJob_updateJob (l : List (String × JobStatus)) (k : String) (v : JobStatus) :
    lookupJob (updateJob l k v) k = some v := by
  induction l with
  | nil => simp [updateJob, lookupJob]
  | cons p rest ih =>
      by_cases h : p.1 = k
      · simp [updateJob, h, lookupJob]
      · simp [updateJob, h, lookupJob, ih]

/-! ## C5: small transcripts yield one chunk spanning the transcript -/

/-- C5: for every non-empty transcript whose total estimated token count is
at most the configured `max_tokens`, `chunk_transcript` returns exactly one
chunk whose segment list and text span the entire transcript. -/
theorem chunk_transcript_single_of_small (cfg : ChunkingConfig) (td : TranscriptData)
    (lang : String) (hne : td.segments ≠ [])
    (hsmall : estimate_tokens (segmentsToText td.segments) lang ≤ cfg.max_tokens) :
    chunk_transcript cfg td lang = [createSingleChunk td lang 0] ∧
    (createSingleChunk td lang 0).segments = td.segments ∧
    (createSingleChunk td lang 0).text = segmentsToText td.segments := by
  refine ⟨?_, rfl, rfl⟩
  rw [chunk_transcript, if_neg hne]
  exact if_pos hsmall

/-- Witness for C5 at a concrete one-segment transcript. -/
theorem chunk_transcript_single_of_small_witness :
    chunk_transcript {} tdOneSeg "en" = [createSingleChunk tdOneSeg "en" 0] :=
  (chunk_transcript_single_of_small {} tdOneSeg "en" (by decide) (by decide)).1

/-! ## C8: merging a single chunk summary -/

/-- C8 counterexample: merging the one-element sequence `[s]` does not
return `s` unchanged — the legacy `topics` field is reset to `[]`. -/
theorem merge_single_not_identity :
    mergeChunkSummaries [summaryTopics] ≠ summaryTopics ∧
    (mergeChunkSummaries [summaryTopics]).topics = [] ∧
    summaryTopics.topics = ["t"] := by
  refine ⟨?_, by decide, by decide⟩
  decide

/-- C8 amended: merging `[s]` preserves the summary text, and — when `s`
has duplicate-free insights (at most 12 of them), duplicate-free framework
names and duplicate-free moments — the `key_insights`, `frameworks` and
`key_moments` fields; the legacy fields are regenerated: `topics`,
`quotes`, `actions` become empty and `bullets` becomes the first 8
insights. -/
theorem merge_single_core_fields (s : SummaryData)
    (hi : s.key_insights.Nodup) (hilen : s.key_insights.length ≤ 12)
    (hf : (s.frameworks.map FrameworkData.name).Nodup)
    (hm : s.key_moments.Nodup) :
    mergeChunkSummaries [s] =
      { s with
          topics := []
          bullets := s.key_insights.take 8
          quotes := []
          actions := [] } := by
  have hins : dedupFirstAux [] s.key_insights = s.key_insights :=
    dedupFirstAux_eq_self _ _ hi (by simp)
  have hmom : dedupFirstAux [] s.key_moments = s.key_moments :=
    dedupFirstAux_eq_self _ _ hm (by simp)
  have hfr : dedupByNameAux [] s.frameworks = s.frameworks :=
    dedupByNameAux_eq_self _ _ hf (by simp)
  simp only [mergeChunkSummaries, combine_chunk_summaries, List.map_cons, List.map_nil,
    List.flatten_cons, List.flatten_nil, List.append_nil, hins, hmom, hfr,
    List.take_of_length_le hilen, List.take_take]
  norm_num [intercalate_singleton]

/-- Witness for C8 amended at a concrete duplicate-free summary. -/
theorem merge_single_core_fields_witness :
    mergeChunkSummaries [summaryW] =
      { summaryW with
          topics := []
          bullets := summaryW.key_insights.take 8
          quotes := []
          actions := [] } :=
  merge_single_core_fields summaryW (by decide) (by decide) (by decide) (by decide)

/-! ## C9: job cancellation -/

/-- C9: for every job id known to the `JobManager`, `cancel_job` returns
true exactly when the job is `pending` or `running`; in that case the
record transitions to `failed` with code `JOB_CANCELLED` and a set
`completed_at`, and a second `cancel_job` on the same job returns false and
leaves the state unchanged. -/
theorem cancel_job_spec (m : JobManager) (job_id : String) (now now2 : ℚ)
    (job : JobStatus) (hjob : lookupJob m.jobs job_id = some job) :
    ((cancel_job m job_id now).1 = true ↔
      (job.status = JobState.pending ∨ job.status = JobState.running)) ∧
    ((cancel_job m job_id now).1 = true →
      lookupJob (cancel_job m job_id now).2.jobs job_id =
        some { job with
                 status := JobState.failed
                 completed_at := some now
                 error := some { code := "JOB_CANCELLED"
                                 message := "Job was cancelled by user" } } ∧
      (cancel_job (cancel_job m job_id now).2 job_id now2).1 = false ∧
      (cancel_job (cancel_job m job_id now).2 job_id now2).2 =
        (cancel_job m job_id now).2) := by
  by_cases hterm : job.status = JobState.completed ∨ job.status = JobState.failed
  · have hcan : cancel_job m job_id now = (false, m) := by
      simp only [cancel_job, hjob]
      rw [if_pos hterm]
    rw [hcan]
    constructor
    · simp only [Bool.false_eq_true, false_iff]
      rintro (h | h) <;> rw [h] at hterm <;>
        rcases hterm with h' | h' <;> exact JobState.noConfusion h'
    · intro h
      exact absurd h (by simp)
  · have hcan : cancel_job m job_id now =
        (true,
          { jobs := updateJob m.jobs job_id
              { job with
                  status := JobState.failed
                  completed_at := some now
                  error := some { code := "JOB_CANCELLED"
                                  message := "Job was cancelled by user" } }
            running_tasks := m.running_tasks.erase job_id }) := by
      simp only [cancel_job, hjob]
      rw [if_neg hterm]
    push_neg at hterm
    rw [hcan]
    refine ⟨⟨fun _ => ?_, fun _ => rfl⟩, fun _ => ⟨?_, ?_, ?_⟩⟩
    · rcases hs : job.status with _ | _ | _ | _
      · exact Or.inl rfl
      · exact Or.inr rfl
      · exact absurd hs hterm.1
      · exact absurd hs hterm.2
    · exact lookupJob_updateJob m.jobs job_id _
    · simp [cancel_job, lookupJob_updateJob]
    · simp [cancel_job, lookupJob_updateJob]

/-- Witness for C9 at a concrete single-pending-job manager. -/
theorem cancel_job_spec_witness :
    (cancel_job pendingManager "j" 5).1 = true ∧
    (cancel_job (cancel_job pendingManager "j" 5).2 "j" 6).1 = false :=
  have h := cancel_job_spec pendingManager "j" 5 6
    { job_id := "j", status := JobState.pending, created_at := 0 } rfl
  have h1 : (cancel_job pendingManager "j" 5).1 = true := h.1.mpr (Or.inl rfl)
  ⟨h1, ((h.2 h1).2).1⟩

/-! ## C6: retry with exponential backoff -/

/-- Inductive specification of the retry loop starting at attempt `i` with
`rem` attempts left: at least one and at most `rem` attempts are made, the
slept delays are exactly `base * 2 ^ (i + j)` for `j` below
`attempts - 1` (so no sleep follows the final attempt), and if every
remaining attempt fails the loop raises the error of the last attempt. -/
theorem executeWithRetryGo_spec {E A : Type} (base : ℚ) (op : Nat → Except E A) :
    ∀ (rem i : Nat) (lastErr : Option E), 1 ≤ rem →
      1 ≤ (executeWithRetryGo base op i rem lastErr).2.1 ∧
      (executeWithRetryGo base op i rem lastErr).2.1 ≤ rem ∧
      (executeWithRetryGo base op i rem lastErr).2.2 =
        (List.range ((executeWithRetryGo base op i rem lastErr).2.1 - 1)).map
          (fun j => base * 2 ^ (i + j)) ∧
      ((∀ j, j < rem → ∀ a, op (i + j) ≠ Except.ok a) →
        ∀ e, op (i + (rem - 1)) = Except.error e →
          (executeWithRetryGo base op i rem lastErr).1 = Except.error (some e)) := by
  intro rem
  induction rem with
  | zero => intro i lastErr h; exact absurd h (by omega)
  | succ r ih =>
      intro i lastErr _
      rcases hop : op i with e | a
      · by_cases hr : r = 0
        · subst hr
          have hgo : executeWithRetryGo base op i (0 + 1) lastErr =
              (Except.error (some e), 1, []) := by
            simp [executeWithRetryGo, hop]
          rw [hgo]
          refine ⟨le_refl 1, le_refl 1, by simp, fun _ e' he' => ?_⟩
          rw [Nat.add_zero] at he'
          rw [hop] at he'
          rw [Except.error.injEq] at he'
          rw [he']
        · have hr1 : 1 ≤ r := Nat.one_le_iff_ne_zero.mpr hr
          obtain ⟨ih1, ih2, ih3, ih4⟩ := ih (i + 1) (some e) hr1
          simp only [executeWithRetryGo, hop, if_neg hr]
          refine ⟨by omega, by omega, ?_, ?_⟩
          · have hn : (executeWithRetryGo base op (i + 1) r (some e)).2.1 =
                ((executeWithRetryGo base op (i + 1) r (some e)).2.1 - 1) + 1 := by omega
            rw [ih3]
            rw [Nat.add_sub_cancel]
            rw [hn, List.range_succ_eq_map, List.map_cons, List.map_map]
            refine congrArg₂ _ (by rw [Nat.add_zero]) ?_
            refine List.map_congr_left fun j _ => ?_
            simp only [Function.comp_apply]
            refine congrArg _ (congrArg _ ?_)
            omega
          · intro hfail e' he'
            refine ih4 (fun j hj a ha => hfail (j + 1) (by omega) a (by rw [← ha]; ring_nf)) e' ?_
            rw [← he']
            refine congrArg _ ?_
            omega
      · have hgo : executeWithRetryGo base op i (r + 1) lastErr = (Except.ok a, 1, []) := by
          simp [executeWithRetryGo, hop]
        rw [hgo]
        refine ⟨le_refl 1, Nat.succ_le_succ (Nat.zero_le r), by simp, fun hfail e' _ => ?_⟩
        have h0 := hfail 0 (by omega) a
        rw [Nat.add_zero] at h0
        exact absurd hop h0

/-- C6: `execute_with_retry` with `max_retries ≥ 1` attempts the operation
at most `max_retries` times; the delay slept before attempt `k` (for
`k ≥ 2`) is exactly `base_delay * 2 ^ (k - 2)` and no delay follows the
final attempt; if every attempt fails, the error of the last attempt is
raised unchanged. -/
theorem execute_with_retry_spec {E A : Type} (mgr : RetryManager) (op : Nat → Except E A)
    (h : 1 ≤ mgr.max_retries) :
    (execute_with_retry mgr op).2.1 ≤ mgr.max_retries ∧
    (execute_with_retry mgr op).2.2 =
      (List.range ((execute_with_retry mgr op).2.1 - 1)).map
        (fun j => mgr.base_delay * 2 ^ j) ∧
    ((∀ j, j < mgr.max_retries → ∀ a, op j ≠ Except.ok a) →
      ∀ e, op (mgr.max_retries - 1) = Except.error e →
        (execute_with_retry mgr op).1 = Except.error (some e)) := by
  obtain ⟨_, h2, h3, h4⟩ := executeWithRetryGo_spec mgr.base_delay op mgr.max_retries 0 none h
  refine ⟨h2, ?_, ?_⟩
  · rw [execute_with_retry, h3]
    exact List.map_congr_left fun j _ => by rw [Nat.zero_add]
  · intro hfail e he
    refine h4 (fun j hj a ha => hfail j hj a (by rw [← ha]; rw [Nat.zero_add])) e ?_
    rw [← he]
    rw [Nat.zero_add]

/-- Witness for C6: three attempts that all fail sleep twice and raise the
last error. -/
theorem execute_with_retry_spec_witness :
    (execute_with_retry { max_retries := 3, base_delay := 1 } alwaysFails).2.1 ≤ 3 ∧
    (execute_with_retry { max_retries := 3, base_delay := 1 } alwaysFails).1 =
      Except.error (some "boom") :=
  have h := execute_with_retry_spec { max_retries := 3, base_delay := 1 } alwaysFails
    (by decide)
  ⟨h.1, h.2.2 (fun _ _ _ hab => Except.noConfusion hab) "boom" rfl⟩

/-! ## C3: `stats.complete()` and the exit paths of `process_video` -/

/-- `_generate_summaries` never touches the start timestamp. -/
theorem generateSummaries_start_time (env : OrchestratorEnv)
    (es_chunks en_chunks : List TranscriptChunk) (stats : ProcessingStats) :
    (generateSummaries env es_chunks en_chunks stats).2.start_time = stats.start_time := by
  rw [generateSummaries]
  split
  · rfl
  · split <;> rfl

/-- C3 counterexample: on a url whose video-id extraction fails,
`process_video` returns the `INVALID_URL` error without calling
`stats.complete()`, so `end_time` and `total_time` stay absent. -/
theorem process_video_no_complete_on_invalid_url :
    (process_video envNoId {} "u" {}).1.status = "error" ∧
    (process_video envNoId {} "u" {}).1.error =
      some { code := "INVALID_URL", message := "Could not extract video ID" } ∧
    (process_video envNoId {} "u" {}).2.end_time = none ∧
    (process_video envNoId {} "u" {}).2.total_time = none :=
  ⟨rfl, rfl, rfl, rfl⟩

/-- C3 amended: `stats.complete()` runs exactly on the exits that pass the
metadata stage — `end_time`/`total_time` are set on the normal exit
(including after a non-terminal transcript failure) and absent on the
video-id-extraction-failure and metadata-failure exits.  (The
unexpected-exception handler of the source also calls `stats.complete()`;
it is unreachable in this exception-free model.) -/
theorem process_video_complete_paths (env : OrchestratorEnv) (cfg : ChunkingConfig)
    (url : String) (options : AnalysisOptions) :
    (process_video env cfg url options).2.end_time =
      (match env.extract_video_id url, env.fetch_metadata url with
       | none, _ => none
       | some _, Except.error _ => none
       | some _, Except.ok _ => some env.end_clock) ∧
    (process_video env cfg url options).2.total_time =
      (match env.extract_video_id url, env.fetch_metadata url with
       | none, _ => none
       | some _, Except.error _ => none
       | some _, Except.ok _ => some (env.end_clock - env.start_clock)) := by
  rcases hx : env.extract_video_id url with _ | vid
  · simp [process_video, hx]
  · rcases hm : env.fetch_metadata url with e | m <;>
      simp [process_video, hx, hm, ProcessingStats.complete, generateSummaries_start_time]

/-! ## C7: transcript failure is non-terminal -/

/-- C7: when id extraction and metadata fetch succeed but the transcript
fetch fails, `process_video` still returns status `ok` with the metadata,
and the transcript and summary fields are absent (chunking and
summarization are skipped). -/
theorem process_video_transcript_failure (env : OrchestratorEnv) (cfg : ChunkingConfig)
    (url : String) (options : AnalysisOptions) (vid : String) (m : VideoMetadata)
    (err : ErrorInfo)
    (hx : env.extract_video_id url = some vid)
    (hm : env.fetch_metadata url = Except.ok m)
    (ht : env.fetch_transcripts url options.languages = Except.error err) :
    (process_video env cfg url options).1.status = "ok" ∧
    (process_video env cfg url options).1.transcripts = none ∧
    (process_video env cfg url options).1.summaries = none ∧
    (process_video env cfg url options).1.metadata = some m ∧
    (process_video env cfg url options).1.error = none := by
  simp [process_video, hx, hm, ht, chunkTranscripts, generateSummaries]

/-- Witness for C7 at a concrete environment whose transcript fetch
fails. -/
theorem process_video_transcript_failure_witness :
    (process_video envNoTranscript {} "u" {}).1.status = "ok" ∧
    (process_video envNoTranscript {} "u" {}).1.transcripts = none ∧
    (process_video envNoTranscript {} "u" {}).1.summaries = none :=
  have h := process_video_transcript_failure envNoTranscript {} "u" {} "vid00000001"
    metaW { code := "TRANSCRIPT_ERROR", message := "no transcript" } rfl rfl rfl
  ⟨h.1, h.2.1, h.2.2.1⟩

/-! ## Batch processor lemmas -/

/-- The concurrent accumulation loop emits exactly one entry per task, in
task order. -/
theorem gatherFold_results (cfg : BatchConfig) :
    ∀ tasks, (gatherFold cfg tasks).1 = tasks.map fun p => expectedEntry cfg p.1 p.2 := by
  intro tasks
  induction tasks with
  | nil => rfl
  | cons p rest ih =>
      rcases p with ⟨url, t⟩
      rcases t with o | msg
      · simp [gatherFold, expectedEntry, ih]
      · simp [gatherFold, expectedEntry, ih]

/-- If the sequential branch returns, it returns what the concurrent
branch computes. -/
theorem seqFold_ok_eq (cfg : BatchConfig) :
    ∀ tasks out, seqFold cfg tasks = Except.ok out → out = gatherFold cfg tasks := by
  intro tasks
  induction tasks with
  | nil =>
      intro out h
      rw [seqFold] at h
      injection h with h
      rw [← h]
      rfl
  | cons p rest ih =>
      intro out h
      rcases p with ⟨url, t⟩
      rcases t with o | msg
      · simp only [seqFold] at h
        rcases hs : seqFold cfg rest with m | r
        · rw [hs] at h
          exact absurd h (by simp)
        · rw [hs] at h
          injection h with h
          rw [← h]
          simp [gatherFold, ih r hs]
      · simp only [seqFold] at h
        exact absurd h (by simp)

/-- When no task raises an escaping exception, the sequential branch
returns the concurrent branch's value. -/
theorem seqFold_of_all_inv (cfg : BatchConfig) :
    ∀ tasks, (∀ p ∈ tasks, TaskOutcome.isInv p.2 = true) →
      seqFold cfg tasks = Except.ok (gatherFold cfg tasks) := by
  intro tasks
  induction tasks with
  | nil => intro _; rfl
  | cons p rest ih =>
      intro hall
      rcases p with ⟨url, t⟩
      rcases t with o | msg
      · have hr := ih fun q hq => hall q (List.mem_cons_of_mem _ hq)
        simp [seqFold, gatherFold, hr]
      · have := hall (url, TaskOutcome.escape msg) (List.mem_cons_self _ _)
        simp [TaskOutcome.isInv] at this

/-- Per-video results of `_process_single_video` depend on the batch config
only through the per-video timeout. -/
theorem processSingleVideo_congr (cfg cfg' : BatchConfig)
    (h : cfg.timeout_per_video = cfg'.timeout_per_video) (url : String)
    (o : InvocationOutcome) :
    processSingleVideo cfg url o = processSingleVideo cfg' url o := by
  cases o <;> simp [processSingleVideo, timeoutResult, h]

/-- The concurrent accumulation loop depends on the batch config only
through the per-video timeout. -/
theorem gatherFold_congr (cfg cfg' : BatchConfig)
    (h : cfg.timeout_per_video = cfg'.timeout_per_video) :
    ∀ tasks, gatherFold cfg tasks = gatherFold cfg' tasks := by
  intro tasks
  induction tasks with
  | nil => rfl
  | cons p rest ih =>
      rcases p with ⟨url, t⟩
      rcases t with o | msg
      · simp [gatherFold, ih, processSingleVideo_congr cfg cfg' h url o]
      · simp [gatherFold, ih]

/-- A successful `process_batch` returns one result per input url, in
input order. -/
theorem process_batch_ok_results (cfg : BatchConfig) (urls : List String)
    (options : AnalysisOptions) (request_id : String) (f : Nat → String → TaskOutcome)
    (resp : AnalysisResponse)
    (h : process_batch cfg urls options request_id f = Except.ok resp) :
    resp.results = urls.enum.map (fun p => expectedEntry cfg p.2 (f p.1 p.2)) ∧
    resp.aggregation.total = urls.length := by
  by_cases hmc : cfg.max_concurrent = 1
  · simp only [process_batch, if_pos hmc] at h
    rcases hs : seqFold cfg (urls.enum.map fun p => (p.2, f p.1 p.2)) with m | out
    · rw [hs] at h
      exact absurd h (by simp)
    · rw [hs] at h
      injection h with h
      rw [← h]
      refine ⟨?_, rfl⟩
      rw [seqFold_ok_eq cfg _ out hs, gatherFold_results, List.map_map]
      rfl
  · simp only [process_batch, if_neg hmc] at h
    injection h with h
    rw [← h]
    refine ⟨?_, rfl⟩
    rw [gatherFold_results, List.map_map]
    rfl

/-! ## C1: result order matches input order -/

/-- C1: every successful `process_batch` returns exactly one result per
input url, and the `i`-th result is the outcome of processing the `i`-th
url — `asyncio.gather` hands results back in task order, so this holds
regardless of completion order. -/
theorem process_batch_results_align (cfg : BatchConfig) (urls : List String)
    (options : AnalysisOptions) (request_id : String) (f : Nat → String → TaskOutcome)
    (resp : AnalysisResponse)
    (h : process_batch cfg urls options request_id f = Except.ok resp) :
    resp.results.length = urls.length ∧
    ∀ i url, urls[i]? = some url →
      resp.results[i]? = some (expectedEntry cfg url (f i url)) := by
  obtain ⟨hres, -⟩ := process_batch_ok_results cfg urls options request_id f resp h
  constructor
  · rw [hres, List.length_map, List.enum_length]
  · intro i url hu
    rw [hres, List.getElem?_map, List.getElem?_enum, hu]
    rfl

/-- Witness for C1 at a concrete two-url batch. -/
theorem process_batch_results_align_witness :
    respAllOk.results.length = (["a", "b"] : List String).length ∧
    respAllOk.results[0]? = some (expectedEntry {} "a" (allOkTasks 0 "a")) :=
  have h := process_batch_results_align {} ["a", "b"] {} "r" allOkTasks respAllOk rfl
  ⟨h.1, h.2 0 "a" rfl⟩

/-! ## C2: exceptions inside one invocation never abort the batch -/

/-- C2 counterexample: an unexpected exception raised inside the
processing of one video is converted to error code `PROCESSING_ERROR`, not
`TASK_EXCEPTION`, while the rest of the batch is still processed. -/
theorem process_batch_raises_gives_processing_error :
    process_batch {} ["a", "b"] {} "r" firstRaisesTasks = Except.ok respFirstRaises ∧
    respFirstRaises.results.map (fun r => (r.status, r.error.map ErrorInfo.code)) =
      [("error", some "PROCESSING_ERROR"), ("ok", none)] ∧
    ("PROCESSING_ERROR" : String) ≠ "TASK_EXCEPTION" :=
  ⟨rfl, rfl, by decide⟩

/-- C2 amended: an unexpected (non-timeout) exception raised inside one
invocation is caught by `_process_single_video` and the corresponding
entry is an error `VideoResult` with code `PROCESSING_ERROR`; only an
exception escaping the per-video task itself becomes a `TASK_EXCEPTION`
entry, built by `process_batch` from `asyncio.gather`'s exception object.
In both cases every other item of the batch is still processed. -/
theorem process_batch_exception_isolation (cfg : BatchConfig) (urls : List String)
    (options : AnalysisOptions) (request_id : String) (f : Nat → String → TaskOutcome)
    (resp : AnalysisResponse)
    (h : process_batch cfg urls options request_id f = Except.ok resp) :
    resp.results.length = urls.length ∧
    (∀ i url msg, urls[i]? = some url →
      f i url = TaskOutcome.inv (InvocationOutcome.raises msg) →
      resp.results[i]? = some (processingErrorResult url msg)) ∧
    (∀ i url msg, urls[i]? = some url → f i url = TaskOutcome.escape msg →
      resp.results[i]? = some (taskExceptionResult msg)) := by
  obtain ⟨hres, -⟩ := process_batch_ok_results cfg urls options request_id f resp h
  refine ⟨by rw [hres, List.length_map, List.enum_length], ?_, ?_⟩
  · intro i url msg hu hf
    rw [hres, List.getElem?_map, List.getElem?_enum, hu]
    simp [hf, expectedEntry, processSingleVideo]
  · intro i url msg hu hf
    rw [hres, List.getElem?_map, List.getElem?_enum, hu]
    simp [hf, expectedEntry]

/-- Witness for C2 amended: in the concrete batch above, the failing entry
keeps its url and carries code `PROCESSING_ERROR`. -/
theorem process_batch_exception_isolation_witness :
    respFirstRaises.results[0]? = some (processingErrorResult "a" "boom") :=
  (process_batch_exception_isolation {} ["a", "b"] {} "r" firstRaisesTasks
    respFirstRaises rfl).2.1 0 "a" "boom" rfl rfl

/-! ## C10: the sequential and concurrent branches agree -/

/-- C10: when every per-video invocation returns (no exception escapes a
task) the sequential branch (`max_concurrent = 1`) and the concurrent
gather branch (`max_concurrent = c ≠ 1`) of `process_batch` produce the
same response: same results list and same succeeded/failed counts. -/
theorem process_batch_seq_eq_concurrent (cfg : BatchConfig) (c : Nat)
    (urls : List String) (options : AnalysisOptions) (request_id : String)
    (f : Nat → String → TaskOutcome)
    (hseq : cfg.max_concurrent = 1) (hc : c ≠ 1)
    (hinv : ∀ i url, TaskOutcome.isInv (f i url) = true) :
    process_batch cfg urls options request_id f =
      process_batch { cfg with max_concurrent := c } urls options request_id f := by
  have hall : ∀ p ∈ (urls.enum.map fun p => (p.2, f p.1 p.2)),
      TaskOutcome.isInv p.2 = true := by
    intro p hp
    obtain ⟨q, -, rfl⟩ := List.mem_map.mp hp
    exact hinv q.1 q.2
  simp only [process_batch, if_pos hseq, if_neg hc]
  rw [seqFold_of_all_inv cfg _ hall]
  rw [gatherFold_congr cfg { cfg with max_concurrent := c } rfl]

/-- Witness for C10 at a concrete two-url batch. -/
theorem process_batch_seq_eq_concurrent_witness :
    process_batch { max_concurrent := 1 } ["a", "b"] {} "r" allOkTasks =
      process_batch { ({ max_concurrent := 1 } : BatchConfig) with max_concurrent := 2 }
        ["a", "b"] {} "r" allOkTasks :=
  process_batch_seq_eq_concurrent { max_concurrent := 1 } 2 ["a", "b"] {} "r"
    allOkTasks rfl (by decide) (fun _ _ => rfl)

/-! ## Chunker lemmas -/

/-- The chunk loop emits every non-blank segment exactly once, in order,
after the pending segments `cur`. -/
theorem createChunksGo_flatten (cfg : ChunkingConfig) (lang : String) :
    ∀ (segs cur : List TranscriptSegment) (curText : String) (curTokens idx : Nat),
      (∀ s ∈ segs, pyStrip s.text ≠ "") →
      ((createChunksGo cfg lang segs cur curText curTokens idx).map
        TranscriptChunk.segments).flatten = cur ++ segs := by
  intro segs
  induction segs with
  | nil =>
      intro cur curText curTokens idx _
      by_cases hcur : cur = []
      · simp [createChunksGo, hcur]
      · simp [createChunksGo, hcur, createChunkFromSegments]
  | cons seg rest ih =>
      intro cur curText curTokens idx hall
      have hst : pyStrip seg.text ≠ "" := hall seg (List.mem_cons_self _ _)
      have hrest : ∀ s ∈ rest, pyStrip s.text ≠ "" :=
        fun s hs => hall s (List.mem_cons_of_mem _ hs)
      simp only [createChunksGo, if_neg hst]
      -- the two outer branches fix the space-prefixed segment text; inside
      -- each: overflow with empty current chunk, overflow with a closed
      -- chunk, and the fits case
      split
      · split
        · split
          · rename_i hcur
            rw [ih [seg] _ _ _ hrest, hcur]
            rfl
          · rw [List.map_cons, List.flatten_cons, ih [seg] _ _ _ hrest]
            simp [createChunkFromSegments]
        · rw [ih (cur ++ [seg]) _ _ _ hrest]
          simp
      · split
        · split
          · rename_i hcur
            rw [ih [seg] _ _ _ hrest, hcur]
            rfl
          · rw [List.map_cons, List.flatten_cons, ih [seg] _ _ _ hrest]
            simp [createChunkFromSegments]
        · rw [ih (cur ++ [seg]) _ _ _ hrest]
          simp

/-- Every chunk the loop emits has a non-empty segment list. -/
theorem createChunksGo_segments_ne_nil (cfg : ChunkingConfig) (lang : String) :
    ∀ (segs cur : List TranscriptSegment) (curText : String) (curTokens idx : Nat)
      (c : TranscriptChunk),
      c ∈ createChunksGo cfg lang segs cur curText curTokens idx → c.segments ≠ [] := by
  intro segs
  induction segs with
  | nil =>
      intro cur curText curTokens idx c hc
      by_cases hcur : cur = []
      · simp [createChunksGo, hcur] at hc
      · simp only [createChunksGo, if_neg hcur, List.mem_singleton] at hc
        rw [hc]
        simpa [createChunkFromSegments] using hcur
  | cons seg rest ih =>
      intro cur curText curTokens idx c hc
      by_cases hst : pyStrip seg.text = ""
      · rw [createChunksGo, if_pos hst] at hc
        exact ih _ _ _ _ c hc
      · simp only [createChunksGo, if_neg hst] at hc
        split at hc
        · split at hc
          · split at hc
            · exact ih _ _ _ _ c hc
            · rename_i hcur
              rcases List.mem_cons.mp hc with hc | hc
              · rw [hc]
                simpa [createChunkFromSegments] using hcur
              · exact ih _ _ _ _ c hc
          · exact ih _ _ _ _ c hc
        · split at hc
          · split at hc
            · exact ih _ _ _ _ c hc
            · rename_i hcur
              rcases List.mem_cons.mp hc with hc | hc
              · rw [hc]
                simpa [createChunkFromSegments] using hcur
              · exact ih _ _ _ _ c hc
          · exact ih _ _ _ _ c hc

/-- Every chunk the loop emits carries the text of its own segments. -/
theorem createChunksGo_text (cfg : ChunkingConfig) (lang : String) :
    ∀ (segs cur : List TranscriptSegment) (curText : String) (curTokens idx : Nat)
      (c : TranscriptChunk),
      c ∈ createChunksGo cfg lang segs cur curText curTokens idx →
      c.text = segmentsToText c.segments := by
  intro segs
  induction segs with
  | nil =>
      intro cur curText curTokens idx c hc
      by_cases hcur : cur = []
      · simp [createChunksGo, hcur] at hc
      · simp only [createChunksGo, if_neg hcur, List.mem_singleton] at hc
        rw [hc]
        rfl
  | cons seg rest ih =>
      intro cur curText curTokens idx c hc
      by_cases hst : pyStrip seg.text = ""
      · rw [createChunksGo, if_pos hst] at hc
        exact ih _ _ _ _ c hc
      · simp only [createChunksGo, if_neg hst] at hc
        split at hc
        · split at hc
          · split at hc
            · exact ih _ _ _ _ c hc
            · rcases List.mem_cons.mp hc with hc | hc
              · rw [hc]
                rfl
              · exact ih _ _ _ _ c hc
          · exact ih _ _ _ _ c hc
        · split at hc
          · split at hc
            · exact ih _ _ _ _ c hc
            · rcases List.mem_cons.mp hc with hc | hc
              · rw [hc]
                rfl
              · exact ih _ _ _ _ c hc
          · exact ih _ _ _ _ c hc

/-- The accumulator run of `String.intercalate` distributes over a prefix
of the accumulator. -/
theorem intercalate_go_append (s : String) :
    ∀ (l : List String) (acc t : String),
      String.intercalate.go (acc ++ t) s l = acc ++ String.intercalate.go t s l := by
  intro l
  induction l with
  | nil => intro acc t; rfl
  | cons x xs ih =>
      intro acc t
      show String.intercalate.go (acc ++ t ++ s ++ x) s xs =
        acc ++ String.intercalate.go (t ++ s ++ x) s xs
      have hre : acc ++ t ++ s ++ x = acc ++ (t ++ s ++ x) := by
        simp [String.append_assoc]
      rw [hre]
      exact ih acc (t ++ s ++ x)

/-- `String.intercalate` over a cons with a non-empty tail. -/
theorem intercalate_cons (s a : String) (l : List String) (h : l ≠ []) :
    String.intercalate s (a :: l) = a ++ s ++ String.intercalate s l := by
  rcases l with _ | ⟨b, bs⟩
  · exact absurd rfl h
  · show String.intercalate.go ((a ++ s) ++ b) s bs =
      (a ++ s) ++ String.intercalate.go b s bs
    exact intercalate_go_append s bs (a ++ s) b

/-- `String.intercalate` over an append of two non-empty lists. -/
theorem intercalate_append (s : String) :
    ∀ l1 l2 : List String, l1 ≠ [] → l2 ≠ [] →
      String.intercalate s (l1 ++ l2) =
        String.intercalate s l1 ++ s ++ String.intercalate s l2 := by
  intro l1
  induction l1 with
  | nil => intro l2 h _; exact absurd rfl h
  | cons a l1' ih =>
      intro l2 h1 h2
      rcases eq_or_ne l1' [] with rfl | hne
      · rw [List.singleton_append, intercalate_cons s a l2 h2, intercalate_singleton]
      · have hne2 : l1' ++ l2 ≠ [] := by
          rcases l1' with _ | ⟨y, ys⟩
          · exact absurd rfl hne
          · simp
        calc String.intercalate s ((a :: l1') ++ l2)
            = String.intercalate s (a :: (l1' ++ l2)) := rfl
          _ = a ++ s ++ String.intercalate s (l1' ++ l2) := intercalate_cons _ _ _ hne2
          _ = a ++ s ++ (String.intercalate s l1' ++ s ++ String.intercalate s l2) := by
              rw [ih l2 hne h2]
          _ = (a ++ s ++ String.intercalate s l1') ++ s ++ String.intercalate s l2 := by
              simp [String.append_assoc]
          _ = String.intercalate s (a :: l1') ++ s ++ String.intercalate s l2 := by
              rw [intercalate_cons s a l1' hne]

/-- Joining per-group intercalations equals intercalating the flattened
groups, for non-empty groups. -/
theorem intercalate_map_flatten (s : String) :
    ∀ groups : List (List String), (∀ g ∈ groups, g ≠ []) →
      String.intercalate s (groups.map (String.intercalate s)) =
        String.intercalate s groups.flatten := by
  intro groups
  induction groups with
  | nil => intro _; rfl
  | cons g gs ih =>
      intro hall
      have hg : g ≠ [] := hall g (List.mem_cons_self _ _)
      have hgs : ∀ g' ∈ gs, g' ≠ [] := fun g' h => hall g' (List.mem_cons_of_mem _ h)
      rcases eq_or_ne gs [] with rfl | hne
      · simp [intercalate_singleton]
      · have hflat : gs.flatten ≠ [] := by
          rcases gs with _ | ⟨g2, gs'⟩
          · exact absurd rfl hne
          · have hg2 : g2 ≠ [] := hgs g2 (List.mem_cons_self _ _)
            rcases g2 with _ | ⟨y, ys⟩
            · exact absurd rfl hg2
            · simp
        have hmapne : gs.map (String.intercalate s) ≠ [] := by
          rcases gs with _ | ⟨g2, gs'⟩
          · exact absurd rfl hne
          · simp
        rw [List.map_cons, intercalate_cons s _ _ hmapne, ih hgs, List.flatten_cons,
          intercalate_append s g gs.flatten hg hflat]

/-! ## C4: the chunks partition the transcript -/

/-- C4 counterexample: on a transcript with a whitespace-only middle
segment, the multi-chunk path drops that segment, so the union of the
chunks' segment lists is not the input segment list. -/
theorem chunk_transcript_partition_counterexample :
    ((chunk_transcript smallCfg tdBlankMiddle "en").map TranscriptChunk.segments).flatten ≠
      tdBlankMiddle.segments := by decide

/-- C4 amended: for every transcript all of whose segments have
non-whitespace text, the chunks partition the input — the concatenation of
the chunks' segment lists is exactly the input segment list (each segment
once, in order), and joining the chunk texts with the single-space
separator reproduces the full transcript text.  (Whitespace-only segments
are dropped by the multi-chunk path, though kept by the single-chunk
path.) -/
theorem chunk_transcript_partition (cfg : ChunkingConfig) (lang : String)
    (td : TranscriptData) (h : ∀ s ∈ td.segments, pyStrip s.text ≠ "") :
    ((chunk_transcript cfg td lang).map TranscriptChunk.segments).flatten = td.segments ∧
    String.intercalate " " ((chunk_transcript cfg td lang).map TranscriptChunk.text) =
      segmentsToText td.segments := by
  by_cases hseg : td.segments = []
  · rw [chunk_transcript, if_pos hseg, hseg]
    exact ⟨rfl, by simp [segmentsToText]⟩
  · rw [chunk_transcript, if_neg hseg]
    by_cases htok : estimate_tokens (segmentsToText td.segments) lang ≤ cfg.max_tokens
    · rw [if_pos htok]
      exact ⟨by simp [createSingleChunk], by simp [createSingleChunk, intercalate_singleton]⟩
    · rw [if_neg htok]
      have h1 : ((createChunks cfg td lang).map TranscriptChunk.segments).flatten =
          td.segments := by
        rw [createChunks]
        simpa using createChunksGo_flatten cfg lang td.segments [] "" 0 0 h
      refine ⟨h1, ?_⟩
      have hne : ∀ c ∈ createChunks cfg td lang, c.segments ≠ [] :=
        fun c hc => createChunksGo_segments_ne_nil cfg lang td.segments [] "" 0 0 c hc
      have htext : ∀ c ∈ createChunks cfg td lang, c.text = segmentsToText c.segments :=
        fun c hc => createChunksGo_text cfg lang td.segments [] "" 0 0 c hc
      have hmem : ∀ c ∈ createChunks cfg td lang, ∀ s ∈ c.segments, s ∈ td.segments := by
        intro c hc s hs
        rw [← h1]
        exact List.mem_flatten.mpr ⟨c.segments, List.mem_map_of_mem _ hc, hs⟩
      have hmapt : (createChunks cfg td lang).map TranscriptChunk.text =
          ((createChunks cfg td lang).map
            (fun c => c.segments.map fun s => pyStrip s.text)).map
              (String.intercalate " ") := by
        rw [List.map_map]
        refine List.map_congr_left fun c hc => ?_
        rw [htext c hc, segmentsToText]
        have hfil : ((c.segments.map fun s => pyStrip s.text).filter fun t => t ≠ "") =
            c.segments.map fun s => pyStrip s.text := by
          refine List.filter_eq_self.mpr ?_
          intro t ht
          obtain ⟨s, hs, rfl⟩ := List.mem_map.mp ht
          simpa using h s (hmem c hc s hs)
        rw [hfil]
        rfl
      rw [hmapt, intercalate_map_flatten]
      · have hflat : ((createChunks cfg td lang).map
            (fun c => c.segments.map fun s => pyStrip s.text)).flatten =
            td.segments.map fun s => pyStrip s.text := by
          have : ((createChunks cfg td lang).map
              (fun c => c.segments.map fun s => pyStrip s.text)) =
              ((createChunks cfg td lang).map TranscriptChunk.segments).map
                (List.map fun s => pyStrip s.text) := by
            rw [List.map_map]
            rfl
          rw [this, ← List.map_flatten, h1]
        rw [hflat, segmentsToText]
        have hfil : ((td.segments.map fun s => pyStrip s.text).filter fun t => t ≠ "") =
            td.segments.map fun s => pyStrip s.text := by
          refine List.filter_eq_self.mpr ?_
          intro t ht
          obtain ⟨s, hs, rfl⟩ := List.mem_map.mp ht
          simpa using h s hs
        rw [hfil]
      · intro g hg
        obtain ⟨c, hc, rfl⟩ := List.mem_map.mp hg
        intro hnil
        exact hne c hc (List.map_eq_nil_iff.mp hnil)

/-- Witness for C4 amended at a concrete two-segment transcript forced
through the multi-chunk path. -/
theorem chunk_transcript_partition_witness :
    ((chunk_transcript smallCfg tdTwoSegs "en").map TranscriptChunk.segments).flatten =
      tdTwoSegs.segments :=
  (chunk_transcript_partition smallCfg "en" tdTwoSegs (by decide)).1

end YTA
